import Mathlib

/-!
Verification of `generate_html.py`, a script that parses a plain-text test
report plus a small head-info file and renders them into an HTML report.

Lines and tokens are modelled as `List Char`; a report file is a
`List (List Char)` of its lines (without trailing newlines, which neither
the filters nor whitespace splitting can observe).
-/

set_option autoImplicit false

abbrev Str := List Char

/-- Python `str.split()` with no argument: maximal runs of non-whitespace
characters, empty tokens never produced.  `splitWSAux acc s` processes `s`
with `acc` holding the reversed current partial token. -/
def flushAcc (acc : Str) : List Str :=
  if acc = [] then [] else [acc.reverse]

def splitWSAux : Str → Str → List Str
  | acc, [] => flushAcc acc
  | acc, c :: cs =>
    if c.isWhitespace then flushAcc acc ++ splitWSAux [] cs
    else splitWSAux (c :: acc) cs

def splitWS (s : Str) : List Str :=
  splitWSAux [] s

/-- One character of the escaping step of `collect_results`. -/
def esc1 (c : Char) : Str :=
  if c = '<' then "&lt".toList else if c = '>' then "&gt".toList else [c]

/-- Models `line.replace("<", "&lt").replace(">", "&gt")` (lines 69-70).
Both patterns are single characters and the first substitution introduces
no `>`, so the two sequential global replaces equal this single
character-wise expansion. -/
def escapeAngles : Str → Str
  | [] => []
  | c :: cs => esc1 c ++ escapeAngles cs

/-- The skip condition of `collect_results` (line 67):
`(i <= 2) or (len(line.split()) < 4) or (line.split()[0][0] == '-')`,
with `i` the 1-based line number.  The `headD` defaults model the partial
double indexing `line.split()[0][0]`; they are never reached when that
disjunct's value matters (see the short-circuit safety theorem). -/
def dropLine (i : Nat) (line : Str) : Bool :=
  decide (i ≤ 2) || decide ((splitWS line).length < 4)
    || decide ((((splitWS line).headD []).headD 'A') = '-')

/-- The loop of `collect_results` (lines 63-71), keeping the 1-based line
number of each retained record: element `j` (0-based) of the remaining
lines carries number `n + j + 1`. -/
def collectAux : Nat → List Str → List (Nat × List Str)
  | _, [] => []
  | n, line :: rest =>
    if dropLine (n + 1) line then collectAux (n + 1) rest
    else (n + 1, splitWS (escapeAngles line)) :: collectAux (n + 1) rest

/-- `collect_results` (lines 59-76): skip the first two lines, lines with
fewer than 4 tokens and separator lines; escape angle brackets of the
retained lines and split them into records. -/
def collect_results (lines : List Str) : List (List Str) :=
  (collectAux 0 lines).map Prod.snd

/-- `collect_head` (lines 78-86): split every line, no filtering. -/
def collect_head (lines : List Str) : List (List Str) :=
  lines.map splitWS

/-- The HTML fragment built by `create_head` when both indexings succeed
(lines 94-100). -/
def headHtml (path commit : Str) : Str :=
  "<p>\n".toList
    ++ "<b>Regression test path: </b>".toList ++ path ++ "<br>\n".toList
    ++ "<b>Latest commit on test branch: </b>".toList ++ commit ++ "<br>\n".toList
    ++ "</p>\n".toList

/-- `create_head` (lines 88-101).  The Python code indexes
`head_info[0][0]` and `head_info[1][0]`; an out-of-range index raises, so
the fallible accesses are modelled with `Option`. -/
def create_head (head_info : List (List Str)) : Option Str :=
  match (head_info.get? 0).bind (fun l => l.get? 0),
        (head_info.get? 1).bind (fun l => l.get? 0) with
  | some path, some commit => some (headHtml path commit)
  | _, _ => none

/-- Python `str.lower()`, applied character-wise. -/
def toLowerL (s : Str) : Str :=
  s.map Char.toLower

/-- Column headers of the main test-result table (lines 30-36). -/
def TABLE_HEADER : List Str :=
  [ "Test ID".toList, "Result ID".toList, "Result Dir or Test Name".toList,
    "Cycles".toList, "Status".toList, "Bucket".toList, "Seed".toList]

/-- Column headers of the bucket-statistics table (lines 38-40). -/
def TABLE_STAT1 : List Str :=
  [ "Bucket".toList, "Count".toList, "Bucket Name".toList]

/-- Column headers of the pass/fail summary table (lines 42-46). -/
def TABLE_STAT2 : List Str :=
  [ "PASS".toList, "FAIL".toList, "No Status".toList, "Total".toList,
    "% Passing".toList]

/-- A center-aligned data cell, `f"<td class='center'>{x}</td>"`. -/
def tdCenter (x : Str) : Str :=
  "<td class=\x27center\x27>".toList ++ x ++ "</td>".toList

/-- A plain left-aligned data cell, `f"<td class='left'>{x}</td>"`. -/
def tdLeft (x : Str) : Str :=
  "<td class=\x27left\x27>".toList ++ x ++ "</td>".toList

/-- The green PASS cell emitted for a `"pass"` token (line 157). -/
def greenPassCell : Str :=
  "<td style=\"background-color:ForestGreen; color:White; text-align:center;\">PASS</td>".toList

/-- The empty left-aligned cell emitted right after a PASS cell (line 158). -/
def emptyLeftCell : Str :=
  "<td class=\x27left\x27></td>".toList

/-- The red Fail cell emitted for a `"fail"` token (line 160). -/
def redFailCell : Str :=
  "<td style=\"background-color:Red; color:White; text-align:center;\">Fail</td>".toList

/-- The cells emitted for one token of a normal-mode row (lines 155-162). -/
def normalCells (item : Str) : List Str :=
  if toLowerL item = "pass".toList then [greenPassCell, emptyLeftCell]
  else if toLowerL item = "fail".toList then [redFailCell]
  else [tdLeft item]

/-- A full normal-mode row (lines 154-163). -/
def normalRow (test : List Str) : List Str :=
  "<tr>".toList :: (test.flatMap normalCells ++ ["</tr>\n".toList])

/-- A bucket-statistics row (lines 141-146): first two tokens as cells,
then the tokens from index `len(TABLE_STAT1)-1` on joined by spaces. -/
def bucketRow (test : List Str) : List Str :=
  [ "<tr>".toList,
    tdCenter (test.getD 0 []),
    tdCenter (test.getD 1 []),
    tdCenter (List.intercalate (" ".toList) (test.drop (TABLE_STAT1.length - 1))),
    "</tr>\n".toList]

/-- A summary-statistics row (lines 148-151): every token as its own cell. -/
def summaryRow (test : List Str) : List Str :=
  "<tr>".toList :: (test.map tdCenter ++ ["</tr>\n".toList])

/-- The mutable state of the `create_table` loop: the two mode flags and
the three accumulated table-fragment lists. -/
structure TableState where
  stat1 : Bool
  stat2 : Bool
  stat1_table : List Str
  stat2_table : List Str
  test_table : List Str
deriving DecidableEq, Repr

/-- One iteration of the `create_table` loop (lines 133-163). -/
def tableStep (st : TableState) (test : List Str) : TableState :=
  if toLowerL (test.headD []) = "bucket".toList then
    { st with stat1 := true }
  else if toLowerL (test.headD []) = "pass".toList then
    { st with stat2 := true, stat1 := false }
  else if st.stat1 then
    { st with stat1_table := st.stat1_table ++ bucketRow test }
  else if st.stat2 then
    { st with stat2_table := st.stat2_table ++ summaryRow test, stat2 := false }
  else
    { st with test_table := st.test_table ++ normalRow test }

/-- The main table opening and header (lines 109-114). -/
def test_table_init : List Str :=
  [ "<table>".toList,
    "<thead><tr><th>".toList
      ++ List.intercalate ("</th><th>".toList) TABLE_HEADER
      ++ "</th></tr></thead>\n".toList]

/-- The styled thead row shared by the two statistics tables. -/
def statThead (headers : List Str) : Str :=
  "<thead style=\"background-color:CornflowerBlue; font-size:1em\"><tr><th>".toList
    ++ List.intercalate ("</th><th>".toList) headers
    ++ "</th></tr></thead>\n".toList

/-- The bucket-statistics table opening and header (lines 116-121). -/
def stat1_table_init : List Str :=
  [ "<table>".toList, statThead TABLE_STAT1]

/-- The summary-statistics table opening and header (lines 122-128). -/
def stat2_table_init : List Str :=
  [ "<table>".toList, statThead TABLE_STAT2]

/-- State of the three tables after the whole `create_table` loop. -/
def create_table_state (test_list : List (List Str)) : TableState :=
  test_list.foldl tableStep
    ⟨false, false, stat1_table_init, stat2_table_init, test_table_init⟩

/-- The footer fragments appended to every table (lines 165-183). -/
def tableClose : List Str :=
  [ "</tbody>\n".toList, "<tfoot></tfoot>\n".toList, "</table>\n".toList]

/-- `create_table` (lines 103-187): the three rendered tables concatenated
as bucket table, summary table, main table. -/
def create_table (test_list : List (List Str)) : Str :=
  let st := create_table_state test_list
  ((st.stat1_table ++ tableClose ++ ["<p> </p>\n".toList])
    ++ (st.stat2_table ++ tableClose ++ ["<p> </p>\n".toList])
    ++ (st.test_table ++ tableClose)).flatten

/-- Python `p.rfind(c)`: largest index of `c` in `p`, `-1` when absent. -/
def rfindChar : Str → Char → Int
  | [], _ => -1
  | c :: cs, d =>
    let r := rfindChar cs d
    if 0 ≤ r then r + 1 else if c = d then 0 else -1

/-- `os.path.splitext` for POSIX paths, following CPython's
`genericpath._splitext`: split at the last dot when it lies after the last
path separator and the basename up to it is not made of dots only. -/
def splitext (p : Str) : Str × Str :=
  let sepIndex := rfindChar p '/'
  let dotIndex := rfindChar p '.'
  if sepIndex < dotIndex then
    let fname := (p.take dotIndex.toNat).drop (sepIndex + 1).toNat
    if fname.any (fun c => c != '.') then
      (p.take dotIndex.toNat, p.drop dotIndex.toNat)
    else (p, [])
  else (p, [])

/-- The output path computed by `main` (lines 271-272):
`os.path.splitext(report_name)[0] + ".html"`. -/
def html_file (report_name : Str) : Str :=
  (splitext report_name).1 ++ ".html".toList

/-- Outcome of the `__main__` argument check: either the usage message and
an exit code without running the pipeline, or running `main` on the four
positional arguments. -/
inductive CliOutcome where
  | usage (msg : Str) (exitCode : Int)
  | run (to_email cc_email report_name head_name : Str)
deriving DecidableEq, Repr

/-- The usage message printed on insufficient arguments (line 279). -/
def usageMsg : Str :=
  "Usage: generate_html.py to_email_list_file cc_email_list_file plain_text_test_report head_file_name".toList

/-- The `__main__` block (lines 277-287). -/
def mainEntry (argv : List Str) : CliOutcome :=
  if argv.length < 5 then CliOutcome.usage usageMsg (-1)
  else CliOutcome.run (argv.getD 1 []) (argv.getD 2 []) (argv.getD 3 [])
    (argv.getD 4 [])

/-! ### Lemmas about escaping and whitespace splitting -/

theorem esc1_ne_nil (c : Char) : esc1 c ≠ [] := by
  unfold esc1
  split
  · decide
  · split
    · decide
    · simp

theorem esc1_whitespace {c : Char} (h : c.isWhitespace = true) :
    esc1 c = [c] := by
  unfold esc1
  split
  · next heq => rw [heq] at h; exact absurd h (by decide)
  · split
    · next heq => rw [heq] at h; exact absurd h (by decide)
    · rfl

theorem esc1_not_whitespace {c : Char} (h : c.isWhitespace = false) :
    ∀ d ∈ esc1 c, d.isWhitespace = false := by
  intro d hd
  unfold esc1 at hd
  split at hd
  · have hm : d = '&' ∨ d = 'l' ∨ d = 't' := by simpa using hd
    rcases hm with rfl | rfl | rfl <;> decide
  · split at hd
    · have hm : d = '&' ∨ d = 'g' ∨ d = 't' := by simpa using hd
      rcases hm with rfl | rfl | rfl <;> decide
    · have hm : d = c := by simpa using hd
      rw [hm]; exact h

theorem escapeAngles_append (a b : Str) :
    escapeAngles (a ++ b) = escapeAngles a ++ escapeAngles b := by
  induction a with
  | nil => rfl
  | cons c cs ih => simp [escapeAngles, ih]

theorem escapeAngles_eq_nil_iff (s : Str) : escapeAngles s = [] ↔ s = [] := by
  cases s with
  | nil => simp [escapeAngles]
  | cons c cs => simp [escapeAngles, esc1_ne_nil]

theorem splitWSAux_nil (acc : Str) : splitWSAux acc [] = flushAcc acc := rfl

theorem splitWSAux_cons (acc : Str) (c : Char) (cs : Str) :
    splitWSAux acc (c :: cs) =
      if c.isWhitespace then flushAcc acc ++ splitWSAux [] cs
      else splitWSAux (c :: acc) cs := rfl

theorem mem_flushAcc {t acc : Str} (h : t ∈ flushAcc acc) :
    t = acc.reverse ∧ acc ≠ [] := by
  unfold flushAcc at h
  split at h
  · simp at h
  · next ha => simp at h; exact ⟨h, ha⟩

theorem flushAcc_map_escape (acc escAcc : Str)
    (h : escAcc.reverse = escapeAngles acc.reverse) :
    flushAcc escAcc = (flushAcc acc).map escapeAngles := by
  unfold flushAcc
  by_cases ha : acc = []
  · have he : escAcc = [] := by
      rw [← List.reverse_eq_nil_iff, h, ha]
      simp [escapeAngles]
    rw [if_pos ha, if_pos he]
    rfl
  · have he : escAcc ≠ [] := by
      intro hc
      apply ha
      rw [← List.reverse_eq_nil_iff, ← escapeAngles_eq_nil_iff, ← h, hc]
      rfl
    rw [if_neg ha, if_neg he]
    simp [h]

theorem splitWSAux_ne_nil (s : Str) :
    ∀ acc : Str, ∀ t ∈ splitWSAux acc s, t ≠ [] := by
  induction s with
  | nil =>
    intro acc t ht
    unfold splitWSAux at ht
    obtain ⟨rfl, ha⟩ := mem_flushAcc ht
    exact fun hc => ha (List.reverse_eq_nil_iff.mp hc)
  | cons c cs ih =>
    intro acc t ht
    unfold splitWSAux at ht
    split at ht
    · rcases List.mem_append.mp ht with h1 | h2
      · obtain ⟨rfl, ha⟩ := mem_flushAcc h1
        exact fun hc => ha (List.reverse_eq_nil_iff.mp hc)
      · exact ih [] t h2
    · exact ih (c :: acc) t ht

theorem splitWS_ne_nil (s : Str) : ∀ t ∈ splitWS s, t ≠ [] :=
  splitWSAux_ne_nil s []

theorem splitWSAux_chunk (chunk : Str)
    (h : ∀ c ∈ chunk, c.isWhitespace = false) :
    ∀ acc rest : Str,
      splitWSAux acc (chunk ++ rest) = splitWSAux (chunk.reverse ++ acc) rest := by
  induction chunk with
  | nil => intro acc rest; simp
  | cons d chunk ih =>
    intro acc rest
    have hd : d.isWhitespace = false := h d (List.mem_cons_self d chunk)
    have htail : ∀ c ∈ chunk, c.isWhitespace = false :=
      fun c hc => h c (List.mem_cons_of_mem d hc)
    rw [List.cons_append]
    show (if d.isWhitespace then flushAcc acc ++ splitWSAux [] (chunk ++ rest)
      else splitWSAux (d :: acc) (chunk ++ rest)) = _
    rw [hd]
    simp only [Bool.false_eq_true, if_false]
    rw [ih htail (d :: acc) rest]
    congr 1
    simp

theorem splitWSAux_escape (s : Str) :
    ∀ acc escAcc : Str, escAcc.reverse = escapeAngles acc.reverse →
      splitWSAux escAcc (escapeAngles s) = (splitWSAux acc s).map escapeAngles := by
  induction s with
  | nil =>
    intro acc escAcc h
    rw [show escapeAngles [] = [] from rfl, splitWSAux_nil, splitWSAux_nil]
    exact flushAcc_map_escape acc escAcc h
  | cons c cs ih =>
    intro acc escAcc h
    rw [show escapeAngles (c :: cs) = esc1 c ++ escapeAngles cs from rfl]
    cases hws : c.isWhitespace with
    | true =>
      rw [esc1_whitespace hws, List.singleton_append, splitWSAux_cons, hws,
        if_pos rfl, ih [] [] rfl, flushAcc_map_escape acc escAcc h,
        splitWSAux_cons, hws, if_pos rfl, List.map_append]
    | false =>
      rw [splitWSAux_chunk (esc1 c) (esc1_not_whitespace hws) escAcc (escapeAngles cs)]
      have hinv : ((esc1 c).reverse ++ escAcc).reverse
          = escapeAngles (c :: acc).reverse := by
        rw [List.reverse_append, List.reverse_reverse, h, List.reverse_cons,
          escapeAngles_append]
        simp [escapeAngles]
      rw [ih (c :: acc) ((esc1 c).reverse ++ escAcc) hinv, splitWSAux_cons, hws,
        if_neg (by decide)]

theorem splitWS_escape (s : Str) :
    splitWS (escapeAngles s) = (splitWS s).map escapeAngles :=
  splitWSAux_escape s [] [] rfl

/-! ### Lemmas about the result collector -/

theorem collectAux_nil (n : Nat) : collectAux n [] = [] := rfl

theorem collectAux_cons (n : Nat) (line : Str) (rest : List Str) :
    collectAux n (line :: rest) =
      if dropLine (n + 1) line then collectAux (n + 1) rest
      else (n + 1, splitWS (escapeAngles line)) :: collectAux (n + 1) rest := rfl

/-- Characterisation of the records produced by the `collect_results` loop:
a line-number-tagged record is produced exactly for the lines the skip
condition retains. -/
theorem mem_collectAux (p : Nat × List Str) (lines : List Str) :
    ∀ n : Nat,
      p ∈ collectAux n lines ↔
        ∃ j line, lines.get? j = some line ∧ p.1 = n + j + 1
          ∧ dropLine (n + j + 1) line = false
          ∧ p.2 = splitWS (escapeAngles line) := by
  induction lines with
  | nil => intro n; simp [collectAux_nil]
  | cons line rest ih =>
    intro n
    rw [collectAux_cons]
    cases hd : dropLine (n + 1) line with
    | true =>
      rw [if_pos rfl, ih (n + 1)]
      constructor
      · rintro ⟨j, l, hget, hp1, hdl, hp2⟩
        refine ⟨j + 1, l, by simpa using hget, by omega, ?_, hp2⟩
        rw [show n + (j + 1) + 1 = n + 1 + j + 1 from by omega]
        exact hdl
      · rintro ⟨j, l, hget, hp1, hdl, hp2⟩
        cases j with
        | zero =>
          obtain rfl : line = l := by simpa using hget
          have hdl' : dropLine (n + 1) line = false := by simpa using hdl
          rw [hdl'] at hd
          cases hd
        | succ j =>
          refine ⟨j, l, by simpa using hget, by omega, ?_, hp2⟩
          rw [show n + 1 + j + 1 = n + (j + 1) + 1 from by omega]
          exact hdl
    | false =>
      rw [if_neg (by simp), List.mem_cons, ih (n + 1)]
      constructor
      · rintro (rfl | ⟨j, l, hget, hp1, hdl, hp2⟩)
        · exact ⟨0, line, by simp, by simp, by simpa using hd, rfl⟩
        · refine ⟨j + 1, l, by simpa using hget, by omega, ?_, hp2⟩
          rw [show n + (j + 1) + 1 = n + 1 + j + 1 from by omega]
          exact hdl
      · rintro ⟨j, l, hget, hp1, hdl, hp2⟩
        cases j with
        | zero =>
          obtain rfl : line = l := by simpa using hget
          left
          refine Prod.ext_iff.mpr ⟨by simpa using hp1, by simpa using hp2⟩
        | succ j =>
          right
          refine ⟨j, l, by simpa using hget, by omega, ?_, hp2⟩
          rw [show n + 1 + j + 1 = n + (j + 1) + 1 from by omega]
          exact hdl

/-! ### Step lemmas for the table renderer -/

theorem tableStep_bucket (st : TableState) (test : List Str)
    (h : toLowerL (test.headD []) = "bucket".toList) :
    tableStep st test = { st with stat1 := true } := by
  unfold tableStep
  rw [if_pos h]

theorem tableStep_pass (st : TableState) (test : List Str)
    (hb : toLowerL (test.headD []) ≠ "bucket".toList)
    (hp : toLowerL (test.headD []) = "pass".toList) :
    tableStep st test = { st with stat2 := true, stat1 := false } := by
  unfold tableStep
  rw [if_neg hb, if_pos hp]

theorem tableStep_bucket_row (st : TableState) (test : List Str)
    (hb : toLowerL (test.headD []) ≠ "bucket".toList)
    (hp : toLowerL (test.headD []) ≠ "pass".toList)
    (h1 : st.stat1 = true) :
    tableStep st test
      = { st with stat1_table := st.stat1_table ++ bucketRow test } := by
  unfold tableStep
  rw [if_neg hb, if_neg hp, h1, if_pos rfl]

theorem tableStep_summary_row (st : TableState) (test : List Str)
    (hb : toLowerL (test.headD []) ≠ "bucket".toList)
    (hp : toLowerL (test.headD []) ≠ "pass".toList)
    (h1 : st.stat1 = false) (h2 : st.stat2 = true) :
    tableStep st test
      = { st with stat2 := false, stat2_table := st.stat2_table ++ summaryRow test } := by
  unfold tableStep
  rw [if_neg hb, if_neg hp, h1, if_neg (by decide), h2, if_pos rfl]

theorem tableStep_normal (st : TableState) (test : List Str)
    (hb : toLowerL (test.headD []) ≠ "bucket".toList)
    (hp : toLowerL (test.headD []) ≠ "pass".toList)
    (h1 : st.stat1 = false) (h2 : st.stat2 = false) :
    tableStep st test
      = { st with test_table := st.test_table ++ normalRow test } := by
  unfold tableStep
  rw [if_neg hb, if_neg hp, h1, if_neg (by decide), h2, if_neg (by decide)]

/-! ### Concrete data used by the witnesses -/

/-- A small report: two header lines, a separator line, one test line and
one malformed (short) line. -/
def wLines : List Str :=
  [ "Report header x y".toList, "=== === == =".toList,
    "--- --- --- ---".toList, "t1 r1 name 5".toList, "bad line".toList]

/-- A small report whose retained line holds an angle-bracketed token. -/
def w3Lines : List Str :=
  [ "h1 a b c".toList, "h2 a b c".toList, "a <x> c d".toList]

/-- The renderer state before any row has been processed, with empty
tables. -/
def wState : TableState :=
  ⟨false, false, [], [], []⟩

/-- A non-control record holding both a pass and a fail token. -/
def wNormalTest : List Str :=
  [ "t1".toList, "Pass".toList, "FAIL".toList, "7".toList]

/-- The token stream of the mode-switch example of the specification. -/
def c1_input : List (List Str) :=
  [ [ "bucket".toList, "1".toList, "2".toList, "groupA".toList],
    [ "b1".toList, "3".toList, "myBucket".toList],
    [ "pass".toList],
    [ "10".toList, "2".toList, "0".toList, "12".toList, "83%".toList],
    [ "t1".toList, "r1".toList, "name".toList, "5".toList, "PASS".toList,
      "b1".toList, "42".toList]]

/-- Number of data cells (fragments opening with `<td`) in a fragment
list. -/
def countTdCells (cells : List Str) : Nat :=
  (cells.filter (fun c => c.take 3 == "<td".toList)).length

/-! ### Claim theorems -/

/-- Claim C2: the result parser drops exactly the first two lines, the
lines with fewer than 4 whitespace tokens and the lines whose first token
starts with a dash, and no others: the record derived from the line at
0-based index `i` (1-based number `i + 1`) appears in the tagged output
exactly when the skip condition rejects it on none of the three tests, and
the parsed output is the untagged projection of the tagged record list, so
a dropped line contributes no record anywhere in the output. -/
theorem collect_results_drops_exactly (lines : List Str) (i : Nat) (line : Str)
    (h : lines.get? i = some line) :
    ((i + 1, splitWS (escapeAngles line)) ∈ collectAux 0 lines
      ↔ dropLine (i + 1) line = false)
    ∧ collect_results lines = (collectAux 0 lines).map Prod.snd := by
  refine ⟨?_, rfl⟩
  rw [mem_collectAux]
  constructor
  · rintro ⟨j, l, hget, hp1, hdl, _⟩
    have hij : i + 1 = 0 + j + 1 := hp1
    obtain rfl : j = i := by omega
    rw [h] at hget
    obtain rfl : line = l := by simpa using hget
    simpa using hdl
  · intro hdl
    exact ⟨i, line, h, by show i + 1 = 0 + i + 1; omega, by simpa using hdl, rfl⟩

theorem collect_results_drops_exactly_witness :
    wLines.get? 3 = some ("t1 r1 name 5".toList)
    ∧ ((((3 : Nat) + 1, splitWS (escapeAngles ("t1 r1 name 5".toList)))
          ∈ collectAux 0 wLines
        ↔ dropLine (3 + 1) ("t1 r1 name 5".toList) = false)
      ∧ collect_results wLines = (collectAux 0 wLines).map Prod.snd) :=
  ⟨by decide, collect_results_drops_exactly wLines 3 _ (by decide)⟩

/-- Claim C3: every retained line is angle-bracket escaped before
tokenization: character-wise `<` becomes `&lt` and `>` becomes `&gt`
(without a terminating semicolon), so the record of a retained line is the
token-wise escape of its tokens, and a retained line containing the token
`<x>` yields a record containing the token `&ltx&gt`. -/
theorem collect_results_escapes (lines : List Str) (i : Nat) (line : Str)
    (h : lines.get? i = some line) (hk : dropLine (i + 1) line = false) :
    splitWS (escapeAngles line) = (splitWS line).map escapeAngles
    ∧ (i + 1, (splitWS line).map escapeAngles) ∈ collectAux 0 lines
    ∧ ("<x>".toList ∈ splitWS line →
        "&ltx&gt".toList ∈ splitWS (escapeAngles line)) := by
  refine ⟨splitWS_escape line, ?_, ?_⟩
  · rw [← splitWS_escape, mem_collectAux]
    exact ⟨i, line, h, by show i + 1 = 0 + i + 1; omega, by simpa using hk, rfl⟩
  · intro hx
    rw [splitWS_escape]
    exact List.mem_map.mpr ⟨_, hx, by decide⟩

theorem collect_results_escapes_witness :
    (w3Lines.get? 2 = some ("a <x> c d".toList)
      ∧ dropLine (2 + 1) ("a <x> c d".toList) = false)
    ∧ (splitWS (escapeAngles ("a <x> c d".toList))
        = (splitWS ("a <x> c d".toList)).map escapeAngles
      ∧ ((2 : Nat) + 1, (splitWS ("a <x> c d".toList)).map escapeAngles)
          ∈ collectAux 0 w3Lines
      ∧ ("<x>".toList ∈ splitWS ("a <x> c d".toList) →
          "&ltx&gt".toList ∈ splitWS (escapeAngles ("a <x> c d".toList)))) :=
  ⟨⟨by decide, by decide⟩,
    collect_results_escapes w3Lines 2 _ (by decide) (by decide)⟩

/-- Claim C8: short-circuit safety of `line.split()[0][0]` in the skip
condition: whenever the earlier disjunct has established that the line
splits into at least 4 tokens, the token list is nonempty and its first
token is a nonempty string, so the double indexing cannot fail when it is
inspected. -/
theorem dropLine_first_token_safe (line : Str)
    (h : 4 ≤ (splitWS line).length) :
    ∃ t ts, splitWS line = t :: ts ∧ t ≠ [] := by
  cases hs : splitWS line with
  | nil => rw [hs] at h; simp at h
  | cons t ts =>
    refine ⟨t, ts, rfl, splitWS_ne_nil line t ?_⟩
    rw [hs]
    exact List.mem_cons_self t ts

theorem dropLine_first_token_safe_witness :
    4 ≤ (splitWS ("t1 r1 name 5".toList)).length
    ∧ ∃ t ts, splitWS ("t1 r1 name 5".toList) = t :: ts ∧ t ≠ [] :=
  ⟨by decide, dropLine_first_token_safe _ (by decide)⟩

/-- Claim C9: every record of the parsed output has at least 4 tokens:
escaping replaces each character by a whitespace-free fragment, so it never
changes a line's token count, and the minimum-4-token filter applied before
escaping carries over to the escaped, re-split record. -/
theorem collect_results_min_tokens (lines : List Str) (r : List Str)
    (h : r ∈ collect_results lines) :
    4 ≤ r.length
    ∧ ∀ s : Str, (splitWS (escapeAngles s)).length = (splitWS s).length := by
  refine ⟨?_, fun s => by rw [splitWS_escape, List.length_map]⟩
  obtain ⟨p, hp, rfl⟩ := List.mem_map.mp h
  rw [mem_collectAux] at hp
  obtain ⟨j, line, hget, hp1, hdl, hp2⟩ := hp
  rw [hp2, splitWS_escape, List.length_map]
  simp only [dropLine, Bool.or_eq_false_iff, decide_eq_false_iff_not] at hdl
  omega

theorem collect_results_min_tokens_witness :
    splitWS (escapeAngles ("t1 r1 name 5".toList)) ∈ collect_results wLines
    ∧ (4 ≤ (splitWS (escapeAngles ("t1 r1 name 5".toList))).length
      ∧ ∀ s : Str, (splitWS (escapeAngles s)).length = (splitWS s).length) :=
  ⟨by decide, collect_results_min_tokens wLines _ (by decide)⟩

/-- Claim C4: in normal mode (no control token, both mode flags off) the
emitted row is the token-wise concatenation of `normalCells`, and for each
token: a token equal to "pass" case-insensitively yields the
green-background white-text PASS cell followed by one additional empty
left-aligned cell; a token equal to "fail" case-insensitively yields the
red-background white-text Fail cell with no additional cell; any other
token yields a single plain left-aligned cell. -/
theorem normal_mode_cells (st : TableState) (test : List Str)
    (hb : toLowerL (test.headD []) ≠ "bucket".toList)
    (hp : toLowerL (test.headD []) ≠ "pass".toList)
    (h1 : st.stat1 = false) (h2 : st.stat2 = false) :
    ((tableStep st test).test_table = st.test_table ++ normalRow test
      ∧ normalRow test
          = "<tr>".toList :: (test.flatMap normalCells ++ ["</tr>\n".toList]))
    ∧ (∀ item : Str, toLowerL item = "pass".toList →
        normalCells item = [greenPassCell, emptyLeftCell])
    ∧ (∀ item : Str, toLowerL item = "fail".toList →
        normalCells item = [redFailCell])
    ∧ (∀ item : Str, toLowerL item ≠ "pass".toList →
        toLowerL item ≠ "fail".toList → normalCells item = [tdLeft item]) := by
  refine ⟨⟨?_, rfl⟩, ?_, ?_, ?_⟩
  · rw [tableStep_normal st test hb hp h1 h2]
  · intro item hpass
    simp only [normalCells, if_pos hpass]
  · intro item hfail
    have hne : toLowerL item ≠ "pass".toList := by
      rw [hfail]; decide
    simp only [normalCells, if_neg hne, if_pos hfail]
  · intro item hnp hnf
    simp only [normalCells, if_neg hnp, if_neg hnf]

theorem normal_mode_cells_witness :
    (toLowerL (wNormalTest.headD []) ≠ "bucket".toList
      ∧ toLowerL (wNormalTest.headD []) ≠ "pass".toList
      ∧ wState.stat1 = false ∧ wState.stat2 = false)
    ∧ (((tableStep wState wNormalTest).test_table
          = wState.test_table ++ normalRow wNormalTest
        ∧ normalRow wNormalTest
            = "<tr>".toList
                :: (wNormalTest.flatMap normalCells ++ ["</tr>\n".toList]))
      ∧ (∀ item : Str, toLowerL item = "pass".toList →
          normalCells item = [greenPassCell, emptyLeftCell])
      ∧ (∀ item : Str, toLowerL item = "fail".toList →
          normalCells item = [redFailCell])
      ∧ (∀ item : Str, toLowerL item ≠ "pass".toList →
          toLowerL item ≠ "fail".toList → normalCells item = [tdLeft item])) :=
  ⟨⟨by decide, by decide, rfl, rfl⟩,
    normal_mode_cells wState wNormalTest (by decide) (by decide) rfl rfl⟩

/-- Claim C10: bucket mode takes precedence over a pending summary mode.
A "pass"-leading row followed by a "bucket"-leading row leaves both flags
set at once; a "bucket"-leading row never clears the summary flag; and in
any state with the bucket flag on, a non-control row is emitted as a
bucket-stat row while the summary table, the summary flag and the bucket
flag all stay untouched, so the pending summary row is never emitted while
bucket mode remains on. -/
theorem bucket_mode_precedence (st : TableState) (brow prow test : List Str)
    (hbr : toLowerL (brow.headD []) = "bucket".toList)
    (hpr : toLowerL (prow.headD []) = "pass".toList)
    (ht1 : toLowerL (test.headD []) ≠ "bucket".toList)
    (ht2 : toLowerL (test.headD []) ≠ "pass".toList) :
    ((tableStep (tableStep st prow) brow).stat1 = true
      ∧ (tableStep (tableStep st prow) brow).stat2 = true)
    ∧ (tableStep st brow).stat2 = st.stat2
    ∧ (∀ s : TableState, s.stat1 = true →
        (tableStep s test).stat1_table = s.stat1_table ++ bucketRow test
        ∧ (tableStep s test).stat2_table = s.stat2_table
        ∧ (tableStep s test).stat2 = s.stat2
        ∧ (tableStep s test).stat1 = true) := by
  have hprb : toLowerL (prow.headD []) ≠ "bucket".toList := by
    rw [hpr]; decide
  refine ⟨?_, ?_, ?_⟩
  · rw [tableStep_pass st prow hprb hpr,
      tableStep_bucket { st with stat2 := true, stat1 := false } brow hbr]
    exact ⟨rfl, rfl⟩
  · rw [tableStep_bucket st brow hbr]
  · intro s hs
    rw [tableStep_bucket_row s test ht1 ht2 hs]
    exact ⟨rfl, rfl, rfl, hs⟩

theorem bucket_mode_precedence_witness :
    (toLowerL (([ "bucket".toList, "1".toList] : List Str).headD [])
        = "bucket".toList
      ∧ toLowerL (([ "pass".toList] : List Str).headD []) = "pass".toList
      ∧ toLowerL (wNormalTest.headD []) ≠ "bucket".toList
      ∧ toLowerL (wNormalTest.headD []) ≠ "pass".toList)
    ∧ (((tableStep (tableStep wState [ "pass".toList])
            [ "bucket".toList, "1".toList]).stat1 = true
        ∧ (tableStep (tableStep wState [ "pass".toList])
            [ "bucket".toList, "1".toList]).stat2 = true)
      ∧ (tableStep wState [ "bucket".toList, "1".toList]).stat2 = wState.stat2
      ∧ (∀ s : TableState, s.stat1 = true →
          (tableStep s wNormalTest).stat1_table
              = s.stat1_table ++ bucketRow wNormalTest
          ∧ (tableStep s wNormalTest).stat2_table = s.stat2_table
          ∧ (tableStep s wNormalTest).stat2 = s.stat2
          ∧ (tableStep s wNormalTest).stat1 = true)) :=
  ⟨⟨by decide, by decide, by decide, by decide⟩,
    bucket_mode_precedence wState [ "bucket".toList, "1".toList]
      [ "pass".toList] wNormalTest (by decide) (by decide) (by decide)
      (by decide)⟩

/-- Claim C1 counterexample: on the claim's token stream the single
normal-mode row emitted by the renderer holds eight data cells — the green
PASS cell, the empty cell and six plain cells — not the seven cells (green
PASS cell, empty cell and five plain cells) the claim describes. -/
theorem table_mode_switch_counterexample :
    countTdCells (create_table_state c1_input).test_table = 8
    ∧ (8 : Nat) ≠ 1 + 1 + 5 := by
  constructor
  · decide
  · decide

/-- Claim C1 (amended): for the token stream `["bucket","1","2","groupA"],
["b1","3","myBucket"], ["pass"], ["10","2","0","12","83%"],
["t1","r1","name","5","PASS","b1","42"]` the renderer produces exactly one
bucket-stat row with cells b1, 3, myBucket; exactly one summary row of
five plain cells; and exactly one normal row with four plain cells, a
green PASS cell followed by an empty cell, and two further plain cells;
both mode flags end up off. -/
theorem table_mode_switch :
    create_table_state c1_input =
      ⟨false, false,
        stat1_table_init ++
          [ "<tr>".toList,
            "<td class=\x27center\x27>b1</td>".toList,
            "<td class=\x27center\x27>3</td>".toList,
            "<td class=\x27center\x27>myBucket</td>".toList,
            "</tr>\n".toList],
        stat2_table_init ++
          [ "<tr>".toList,
            "<td class=\x27center\x27>10</td>".toList,
            "<td class=\x27center\x27>2</td>".toList,
            "<td class=\x27center\x27>0</td>".toList,
            "<td class=\x27center\x27>12</td>".toList,
            "<td class=\x27center\x27>83%</td>".toList,
            "</tr>\n".toList],
        test_table_init ++
          [ "<tr>".toList,
            "<td class=\x27left\x27>t1</td>".toList,
            "<td class=\x27left\x27>r1</td>".toList,
            "<td class=\x27left\x27>name</td>".toList,
            "<td class=\x27left\x27>5</td>".toList,
            "<td style=\"background-color:ForestGreen; color:White; text-align:center;\">PASS</td>".toList,
            "<td class=\x27left\x27></td>".toList,
            "<td class=\x27left\x27>b1</td>".toList,
            "<td class=\x27left\x27>42</td>".toList,
            "</tr>\n".toList]⟩ := by
  decide

/-- Claim C5: the head parser applies no filtering — it keeps one token
list per input line — and when the head-info file has fewer than 2 lines
the downstream composition of the head block fails (the indexing of the
second line yields nothing, modelled as `none`). -/
theorem create_head_short_file (lines : List Str) (h : lines.length < 2) :
    (collect_head lines).length = lines.length
    ∧ create_head (collect_head lines) = none := by
  constructor
  · simp [collect_head]
  · have h1 : (collect_head lines).get? 1 = none := by
      rw [List.get?_eq_none, collect_head, List.length_map]
      omega
    unfold create_head
    rw [h1]
    cases ((collect_head lines).get? 0).bind (fun l => l.get? 0) <;> rfl

theorem create_head_short_file_witness :
    (([ "path 123".toList] : List Str).length < 2)
    ∧ ((collect_head [ "path 123".toList]).length
        = ([ "path 123".toList] : List Str).length
      ∧ create_head (collect_head [ "path 123".toList]) = none) :=
  ⟨by decide, create_head_short_file _ (by decide)⟩

/-- Claim C6: with fewer than 5 argv entries (program name plus fewer than
4 positional arguments) the entry point yields the usage message and the
nonzero exit code -1 without reaching the pipeline, and with 5 or more
entries it runs the pipeline on the four positional arguments. -/
theorem main_arg_check (argv : List Str) (h : argv.length < 5) :
    mainEntry argv = CliOutcome.usage usageMsg (-1)
    ∧ (-1 : Int) ≠ 0
    ∧ ∀ argv2 : List Str, 5 ≤ argv2.length →
        mainEntry argv2 = CliOutcome.run (argv2.getD 1 []) (argv2.getD 2 [])
          (argv2.getD 3 []) (argv2.getD 4 []) := by
  refine ⟨?_, by decide, ?_⟩
  · simp only [mainEntry, if_pos h]
  · intro argv2 h2
    simp only [mainEntry, if_neg (by omega : ¬argv2.length < 5)]

theorem main_arg_check_witness :
    (([ "prog".toList, "to.txt".toList] : List Str).length < 5)
    ∧ (mainEntry [ "prog".toList, "to.txt".toList]
        = CliOutcome.usage usageMsg (-1)
      ∧ (-1 : Int) ≠ 0
      ∧ ∀ argv2 : List Str, 5 ≤ argv2.length →
          mainEntry argv2 = CliOutcome.run (argv2.getD 1 []) (argv2.getD 2 [])
            (argv2.getD 3 []) (argv2.getD 4 [])) :=
  ⟨by decide, main_arg_check _ (by decide)⟩

/-- Claim C7: the HTML output path produced by the entry point is the
report path's extension-free root with `.html` appended, and that root
followed by the split-off extension reconstitutes the report path exactly,
so the output file shares the report's base path with only the extension
replaced. -/
theorem html_file_roundtrip (report_name : Str) :
    html_file report_name = (splitext report_name).1 ++ ".html".toList
    ∧ (splitext report_name).1 ++ (splitext report_name).2 = report_name := by
  refine ⟨rfl, ?_⟩
  simp only [splitext]
  split_ifs <;> simp [List.take_append_drop]
